import Mathlib

/-!
Shallow embedding of the dragonseeker game-session engine
(src/app/src/core and src/app/src/services) and proofs of the
specification claims about it.

Rust `HashMap`s are modelled as association lists with unique keys
(`insertKV` replaces an existing binding in place, matching
`HashMap::insert`); randomness (role shuffle, tie-break choice,
word-pair selection) is modelled by explicit parameters; clock reads
are modelled by an explicit `now : Int` (unix seconds) parameter.
The broadcast channel carries no game state and is omitted.
-/

namespace DragonSeeker

/-! ### Association-list map operations (model of Rust HashMap) -/

def lookupKV {α : Type} (k : String) : List (String × α) → Option α
  | [] => none
  | kv :: rest => if kv.1 = k then some kv.2 else lookupKV k rest

def insertKV {α : Type} (k : String) (v : α) (m : List (String × α)) : List (String × α) :=
  match lookupKV k m with
  | some _ => m.map (fun kv => if kv.1 = k then (k, v) else kv)
  | none => m ++ [(k, v)]

def eraseKV {α : Type} (k : String) (m : List (String × α)) : List (String × α) :=
  m.filter (fun kv => decide (kv.1 ≠ k))

/-! ### Roles (src/app/src/core/roles.rs) -/

inductive Role where
  | Villager
  | Knight
  | Dragon
deriving DecidableEq, Repr

def Role.as_str : Role → String
  | .Villager => "villager"
  | .Knight => "knight"
  | .Dragon => "dragon"

/-! ### Player (src/app/src/core/player.rs) -/

structure Player where
  id : String
  nickname : String
  role : Option String
  is_alive : Bool
  is_host : Bool
  knows_word : Bool
  joined_at : Int
deriving DecidableEq, Repr

/-- Rust `Player::new`: fresh player; the caller supplies the UUID that
`Uuid::new_v4()` would generate. -/
def Player.new (id nickname : String) (is_host : Bool) (now : Int) : Player :=
  { id := id, nickname := nickname, role := none, is_alive := true,
    is_host := is_host, knows_word := false, joined_at := now }

/-! ### Role assignment (src/app/src/core/roles.rs, `assign_roles`) -/

/-- The role pool built by `assign_roles` before shuffling:
1 dragon, `(n-3)/2` knights, the rest villagers. -/
def rolePool (n : Nat) : List Role :=
  Role.Dragon :: (List.replicate ((n - 3) / 2) Role.Knight
    ++ List.replicate (n - 1 - (n - 3) / 2) Role.Villager)

/-- The per-player update performed in the assignment loop of `assign_roles`. -/
def assignOne (p : Player) (r : Role) : Player :=
  { p with role := some r.as_str, knows_word := decide (r ≠ Role.Dragon) }

/-- Rust `assign_roles`, with the `thread_rng` shuffle passed in as a function.
Returns the updated player list instead of mutating in place; the Rust
error paths return before any player is touched. -/
def assign_roles (shuffle : List Role → List Role) (players : List Player) :
    Except String (List Player) :=
  let player_count := players.length
  if player_count < 3 then .error "Minimum 3 players required"
  else if player_count > 12 then .error "Maximum 12 players allowed"
  else
    let role_pool := shuffle (rolePool player_count)
    if role_pool.length ≠ player_count then
      .error "Role pool size does not match player count"
    else
      .ok (List.zipWith assignOne players role_pool)

/-! ### Constants (src/app/src/core/constants.rs is absent from the sources) -/

/-- Modelled from the spec: `constants.rs` is missing; §4.2 fixes
`MIN_PLAYERS` at 3 ("requires participant count >= MIN_PLAYERS (3)"). -/
def MIN_PLAYERS : Nat := 3

/-- Modelled from the spec: `constants.rs` is missing; §4.1 fixes the
unfinished-game TTL at "default 1 hour". -/
def GAME_TTL_SECONDS : Nat := 3600

/-- Modelled from the spec: `constants.rs` is missing; §4.1 fixes the
finished-game TTL at "default 30 minutes". -/
def FINISHED_GAME_TTL_SECONDS : Nat := 1800

/-! ### Game session (src/app/src/core/game_session.rs) -/

inductive GameState where
  | Lobby
  | Playing
  | Voting
  | DragonGuess
  | Finished
deriving DecidableEq, Repr

/-- The `last_elimination` JSON object built by `tally_votes`. -/
structure EliminationDetails where
  eliminated_id : String
  eliminated_nickname : String
  eliminated_role : Option String
  vote_counts : List (String × Nat)
  was_tie : Bool
deriving DecidableEq, Repr

/-- Rust `GameSession`; the broadcast channel carries no game state and is
omitted, timestamps are unix seconds. -/
structure GameSession where
  game_id : String
  players : List (String × Player)
  state : GameState
  villager_word : Option String
  knight_word : Option String
  created_at : Int
  started_at : Option Int
  finished_at : Option Int
  votes : List (String × String)
  winner : Option String
  dragon_guess : Option String
  eliminated_player_id : Option String
  last_elimination : Option EliminationDetails
  player_order : List String
  voting_timer_seconds : Option Nat
  voting_started_at : Option Int
deriving DecidableEq, Repr

/-- Rust `GameSession::new`. -/
def GameSession.new (game_id : String) (now : Int) : GameSession :=
  { game_id := game_id, players := [], state := .Lobby,
    villager_word := none, knight_word := none,
    created_at := now, started_at := none, finished_at := none,
    votes := [], winner := none, dragon_guess := none,
    eliminated_player_id := none, last_elimination := none,
    player_order := [], voting_timer_seconds := none,
    voting_started_at := none }

/-- Rust `GameSession::add_player`; the caller supplies the UUID the Rust code
generates inside `Player::new`. -/
def GameSession.add_player (s : GameSession) (nickname id : String) (now : Int) :
    Except String (GameSession × Player) :=
  if s.state ≠ GameState.Lobby then
    .error "Cannot join game that has already started"
  else
    let is_host := s.players.isEmpty
    let player := Player.new id nickname is_host now
    .ok ({ s with players := insertKV player.id player s.players }, player)

/-- Rust `GameSession::remove_player`: remove the entry, then, if the host left
and players remain, promote the first remaining player
(`values_mut().next()`) to host. -/
def GameSession.remove_player (s : GameSession) (player_id : String) : GameSession :=
  let ps := eraseKV player_id s.players
  let ps' :=
    if ¬ ps.isEmpty ∧ ¬ ps.any (fun kv => kv.2.is_host) then
      match ps with
      | [] => ps
      | (k, p) :: rest => (k, { p with is_host := true }) :: rest
    else ps
  { s with players := ps' }

/-- Rust `GameSession::can_start`. -/
def GameSession.can_start (s : GameSession) : Bool :=
  s.players.length ≥ MIN_PLAYERS

/-- Rust `GameSession::start_game`, with the two shuffles, the word-pair list
(`WORD_PAIRS` lives in the missing `constants.rs`) and the random pair
index passed in explicitly. -/
def GameSession.start_game (shuffle : List Role → List Role)
    (shuffleIds : List String → List String)
    (wordPairs : List (String × String)) (pairIdx : Nat) (now : Int)
    (s : GameSession) : Except String GameSession :=
  if ¬ s.can_start then .error "Need at least 3 players to start"
  else if s.state ≠ GameState.Lobby then .error "Game has already started"
  else
    match assign_roles shuffle (s.players.map Prod.snd) with
    | .error e => .error e
    | .ok players_list =>
      let players' := players_list.foldl (fun m p => insertKV p.id p m) s.players
      match wordPairs.get? (pairIdx % wordPairs.length) with
      | none => .error "No word pairs available"
      | some word_pair =>
        .ok { s with
          players := players',
          villager_word := some word_pair.1,
          knight_word := some word_pair.2,
          player_order := shuffleIds (players'.map Prod.fst),
          state := GameState.Playing,
          started_at := some now }

/-- Rust `GameSession::submit_vote`. -/
def GameSession.submit_vote (s : GameSession) (voter_id target_id : String) :
    Except String GameSession :=
  if s.state ≠ GameState.Voting then .error "Not in voting phase"
  else
    match lookupKV voter_id s.players with
    | none => .error "Voter doesn't exist"
    | some voter =>
      match lookupKV target_id s.players with
      | none => .error "Target doesn't exist"
      | some target =>
        if ¬ voter.is_alive then .error "Voter is not alive"
        else if ¬ target.is_alive then .error "Cannot vote for dead player"
        else .ok { s with votes := insertKV voter_id target_id s.votes }

/-! ### Vote tallying (src/app/src/core/game_session.rs, `tally_votes`) -/

/-- Votes received by target `t` (the `vote_counts` entry for `t`). -/
def voteCount (votes : List (String × String)) (t : String) : Nat :=
  (votes.map Prod.snd).count t

/-- The distinct vote targets (the keys of the `vote_counts` map). -/
def voteTargets (votes : List (String × String)) : List String :=
  (votes.map Prod.snd).dedup

/-- Rust `*vote_counts.values().max().unwrap_or(&0)`. -/
def maxVotes (votes : List (String × String)) : Nat :=
  ((voteTargets votes).map (voteCount votes)).foldr max 0

/-- The targets tied at the maximum vote count (`tied_players`). -/
def tiedPlayers (votes : List (String × String)) : List String :=
  (voteTargets votes).filter (fun t => voteCount votes t == maxVotes votes)

/-- The `vote_counts` map as an association list. -/
def voteCountsList (votes : List (String × String)) : List (String × Nat) :=
  (voteTargets votes).map (fun t => (t, voteCount votes t))

/-- The JSON value returned by `tally_votes`, as a sum type: the
empty-votes early return, a successful elimination, or the fallback when
the chosen target is not a player. -/
inductive TallyResult where
  | noVotes
  | eliminated (details : EliminationDetails)
  | targetMissing (vote_counts : List (String × Nat))
deriving DecidableEq, Repr

/-- Rust `eliminated_player.is_alive = false`. -/
def killPlayer (p : Player) : Player :=
  { p with is_alive := false }

/-- Rust `GameSession::tally_votes`; `k` stands for the `thread_rng` draw of
`tied_players.choose`: the chosen entry is `tied_players[k % len]`. -/
def GameSession.tally_votes (k : Nat) (s : GameSession) :
    GameSession × TallyResult :=
  if s.votes.isEmpty then (s, .noVotes)
  else
    let vote_counts := voteCountsList s.votes
    let tied_players := tiedPlayers s.votes
    let eliminated_id := tied_players.getD (k % tied_players.length) ""
    match lookupKV eliminated_id s.players with
    | some p =>
      let details : EliminationDetails :=
        { eliminated_id := eliminated_id,
          eliminated_nickname := p.nickname,
          eliminated_role := p.role,
          vote_counts := vote_counts,
          was_tie := decide (tied_players.length > 1) }
      ({ s with
          players := s.players.map (fun kv =>
            if kv.1 = eliminated_id then (kv.1, killPlayer kv.2) else kv),
          eliminated_player_id := some eliminated_id,
          last_elimination := some details },
        .eliminated details)
    | none => (s, .targetMissing vote_counts)

/-! ### Win conditions (src/app/src/services/win_conditions.rs and
`GameSession::check_win_condition`) -/

/-- The session's player records in iteration order. -/
def GameSession.playerList (s : GameSession) : List Player :=
  s.players.map Prod.snd

/-- Rust `players.values().find(|p| p.role.as_deref() == Some("dragon"))`. -/
def GameSession.findDragon (s : GameSession) : Option Player :=
  s.playerList.find? (fun p => p.role == some "dragon")

/-- Rust `alive_players.len()`. -/
def GameSession.aliveCount (s : GameSession) : Nat :=
  (s.playerList.filter (fun p => p.is_alive)).length

/-- Rust `check_dragon_eliminated`. -/
def check_dragon_eliminated (s : GameSession) : Bool :=
  match s.findDragon with
  | some dragon => ¬ dragon.is_alive
  | none => false

/-- Rust `check_dragon_survived`. -/
def check_dragon_survived (s : GameSession) : Bool :=
  match s.findDragon with
  | some d => d.is_alive && s.aliveCount ≤ 2
  | none => false

/-- Rust `determine_winner` (src/app/src/services/win_conditions.rs). -/
def determine_winner (s : GameSession) : Option String :=
  if check_dragon_eliminated s then none
  else if check_dragon_survived s then some "dragon"
  else none

/-- Rust `GameSession::check_win_condition`. -/
def GameSession.check_win_condition (s : GameSession) : Option String :=
  let dragon := s.findDragon
  match dragon with
  | some d =>
    if ¬ d.is_alive then none
    else if s.aliveCount ≤ 2 then some "dragon"
    else none
  | none =>
    if s.aliveCount ≤ 2 then none
    else none

/-! ### Personalized snapshot (src/app/src/core/game_session.rs,
`get_state_for_player`, and src/app/src/core/player.rs, `Player::to_dict`) -/

/-- One entry of the snapshot's `players` array. `role_entry = none`
models the role key being absent from the JSON object. -/
structure PlayerView where
  id : String
  nickname : String
  is_alive : Bool
  is_host : Bool
  role_entry : Option (Option String)
deriving DecidableEq, Repr

/-- Rust `Player::to_dict`. -/
def Player.to_dict (p : Player) (include_role : Bool) : PlayerView :=
  { id := p.id, nickname := p.nickname, is_alive := p.is_alive,
    is_host := p.is_host,
    role_entry := if include_role then some p.role else none }

/-- The snapshot JSON built by `get_state_for_player`. The four
`*_entry` fields model keys that only exist once the phase is
`Finished` (`none` = key absent). -/
structure StateView where
  game_id : String
  state : GameState
  your_id : String
  your_role : Option String
  your_word : Option String
  is_host : Bool
  is_alive : Bool
  players : List PlayerView
  player_count : Nat
  alive_count : Nat
  can_start : Bool
  votes_submitted : Nat
  has_voted : Bool
  last_elimination : Option EliminationDetails
  player_order : List String
  voting_timer_seconds : Option Nat
  voting_started_at : Option Int
  winner_entry : Option (Option String)
  villager_word_entry : Option (Option String)
  knight_word_entry : Option (Option String)
  dragon_guess_entry : Option (Option String)
deriving DecidableEq, Repr

/-- The `state_data` object built by `get_state_for_player` before the
`Finished` overrides. -/
def snapshotBase (s : GameSession) (player_id : String) (player : Player) :
    StateView :=
  { game_id := s.game_id, state := s.state, your_id := player_id,
    your_role := player.role,
    your_word :=
      if player.knows_word then
        if player.role == some "knight" then s.knight_word else s.villager_word
      else none,
    is_host := player.is_host, is_alive := player.is_alive,
    players := s.playerList.map (fun p => p.to_dict false),
    player_count := s.players.length,
    alive_count := s.aliveCount,
    can_start := s.can_start,
    votes_submitted := s.votes.length,
    has_voted := (lookupKV player_id s.votes).isSome,
    last_elimination := s.last_elimination,
    player_order := s.player_order,
    voting_timer_seconds := s.voting_timer_seconds,
    voting_started_at := s.voting_started_at,
    winner_entry := none, villager_word_entry := none,
    knight_word_entry := none, dragon_guess_entry := none }

/-- The overrides applied by `get_state_for_player` once the phase is
`Finished`. -/
def snapshotFinished (s : GameSession) (player_id : String) (player : Player) :
    StateView :=
  { snapshotBase s player_id player with
    winner_entry := some s.winner,
    villager_word_entry := some s.villager_word,
    knight_word_entry := some s.knight_word,
    dragon_guess_entry := some s.dragon_guess,
    players := s.playerList.map (fun p => p.to_dict true) }

/-- Rust `GameSession::get_state_for_player`; the unknown-player early return
of `{}` is modelled as `none`. -/
def GameSession.get_state_for_player (s : GameSession) (player_id : String) :
    Option StateView :=
  match lookupKV player_id s.players with
  | none => none
  | some player =>
    if s.state = GameState.Finished then
      some (snapshotFinished s player_id player)
    else some (snapshotBase s player_id player)

/-! ### Phase transitions (src/app/src/services/game_state.rs) -/

/-- Rust `transition_to_finished`. -/
def transition_to_finished (now : Int) (s : GameSession) (winner : String) :
    GameSession :=
  { s with
    state := GameState.Finished,
    winner := some winner,
    finished_at := some now }

/-! ### Dragon guess (src/app/src/routes/gameplay.rs, `guess_word`).
Only the session-level behaviour after auth and game lookup is modelled.
Rust's `str::trim`, `str::to_lowercase` and `str::len` (bytes) are
modelled character-wise (ASCII whitespace and case). -/

/-- Rust `str::trim`: strip leading and trailing whitespace. -/
def trimStr (s : String) : String :=
  ⟨((s.data.dropWhile Char.isWhitespace).reverse.dropWhile
      Char.isWhitespace).reverse⟩

/-- Rust `str::to_lowercase` (ASCII case mapping). -/
def lowerStr (s : String) : String :=
  ⟨s.data.map Char.toLower⟩

/-- Rust `str::len`: length in UTF-8 bytes. -/
def utf8Len (s : String) : Nat :=
  s.data.foldl (fun n c => n + c.utf8Size) 0

def guess_word (now : Int) (s : GameSession) (player_id guess : String) :
    Except String (GameSession × Bool) :=
  match lookupKV player_id s.players with
  | none => .error "Player not found"
  | some player =>
    if player.role ≠ some "dragon" then .error "Only Dragon can guess the word"
    else if s.state ≠ GameState.DragonGuess then .error "Not in dragon guess phase"
    else
      match s.villager_word with
      | none => .error "Game state error: word not set"
      | some villager_word =>
        let g := lowerStr (trimStr guess)
        if utf8Len g > 50 then .error "Guess too long (max 50 characters)"
        else if g.data.isEmpty then .error "Guess cannot be empty"
        else
          let correct := g == lowerStr villager_word
          let winner := if correct then "dragon" else "villagers"
          .ok (transition_to_finished now { s with dragon_guess := some g } winner,
            correct)

/-! ### Session registry (src/app/src/core/game_manager.rs) -/

structure GameManager where
  games : List (String × GameSession)
deriving DecidableEq, Repr

/-- Rust `GameManager::remove_game`. -/
def GameManager.remove_game (m : GameManager) (game_id : String) : GameManager :=
  { games := eraseKV game_id m.games }

/-- Whether `cleanup_stale_games` marks a session for removal at time
`now`: created before the 1-hour cutoff, or finished with `finished_at`
before the 30-minute cutoff. -/
def isStale (now : Int) (g : GameSession) : Bool :=
  (g.created_at < now - (GAME_TTL_SECONDS : Int)) ||
  (g.state == GameState.Finished &&
    (match g.finished_at with
     | some finished_at => decide (finished_at < now - (FINISHED_GAME_TTL_SECONDS : Int))
     | none => false))

/-- Rust `GameManager::cleanup_stale_games`: collect the stale game ids, then
remove each; returns the new registry and the count removed. -/
def GameManager.cleanup_stale_games (now : Int) (m : GameManager) :
    GameManager × Nat :=
  let stale_game_ids := (m.games.filter (fun kv => isStale now kv.2)).map Prod.fst
  (stale_game_ids.foldl GameManager.remove_game m, stale_game_ids.length)

/-! ### Sample data used by the concrete witnesses -/

/-- A list of `n` freshly joined players with ids `"0"`, `"1"`, …; the first is host. -/
def samplePlayers (n : Nat) : List Player :=
  (List.range n).map (fun i => Player.new (toString i) ("P" ++ toString i) (i == 0) 0)

/-! ### Helper lemmas -/

theorem countP_replicate {α : Type} (n : Nat) (a : α) (p : α → Bool) :
    (List.replicate n a).countP p = if p a then n else 0 := by
  induction n with
  | zero => simp
  | succ n ih =>
    rw [List.replicate_succ, List.countP_cons, ih]
    by_cases h : p a <;> simp [h]

theorem exists_of_mem_zipWith {α β γ : Type} {f : α → β → γ} {c : γ} :
    ∀ {as : List α} {bs : List β}, c ∈ List.zipWith f as bs →
      ∃ a b, a ∈ as ∧ b ∈ bs ∧ c = f a b := by
  intro as
  induction as with
  | nil => intro bs h; simp at h
  | cons a as ih =>
    intro bs h
    cases bs with
    | nil => simp at h
    | cons b bs =>
      rw [List.zipWith_cons_cons, List.mem_cons] at h
      rcases h with h | h
      · exact ⟨a, b, List.mem_cons_self a as, List.mem_cons_self b bs, h⟩
      · obtain ⟨a', b', ha, hb, hc⟩ := ih h
        exact ⟨a', b', List.mem_cons_of_mem a ha, List.mem_cons_of_mem b hb, hc⟩

theorem zipWith_assignOne_map_role (ps : List Player) (rs : List Role)
    (h : ps.length = rs.length) :
    (List.zipWith assignOne ps rs).map Player.role
      = rs.map (fun r => some r.as_str) := by
  induction ps generalizing rs with
  | nil =>
    cases rs with
    | nil => simp
    | cons r rs => simp at h
  | cons p ps ih =>
    cases rs with
    | nil => simp at h
    | cons r rs =>
      rw [List.zipWith_cons_cons, List.map_cons, List.map_cons]
      have : (assignOne p r).role = some r.as_str := rfl
      rw [this, ih rs (by simpa using h)]

theorem rolePool_length (n : Nat) (h : 3 ≤ n) :
    (rolePool n).length = n := by
  have hk : (n - 3) / 2 ≤ n - 3 := Nat.div_le_self _ _
  simp only [rolePool, List.length_cons, List.length_append, List.length_replicate]
  omega

theorem rolePool_count_dragon (n : Nat) :
    (rolePool n).count Role.Dragon = 1 := by
  simp only [rolePool, List.count_cons, List.count_append, List.count,
    countP_replicate]
  simp

theorem rolePool_count_knight (n : Nat) :
    (rolePool n).count Role.Knight = (n - 3) / 2 := by
  simp only [rolePool, List.count_cons, List.count_append, List.count]
  simp [countP_replicate]

theorem rolePool_count_villager (n : Nat) :
    (rolePool n).count Role.Villager = n - 1 - (n - 3) / 2 := by
  simp only [rolePool, List.count_cons, List.count_append, List.count]
  simp [countP_replicate]

/-- Counting a role string among assigned players equals counting the role
in the shuffled pool. -/
theorem countP_role_eq_count (ps : List Player) (rs : List Role)
    (h : ps.length = rs.length) (r0 : Role) :
    (List.zipWith assignOne ps rs).countP (fun p => p.role == some r0.as_str)
      = rs.count r0 := by
  have hmap := zipWith_assignOne_map_role ps rs h
  have h1 : (List.zipWith assignOne ps rs).countP (fun p => p.role == some r0.as_str)
      = ((List.zipWith assignOne ps rs).map Player.role).countP
          (fun o => o == some r0.as_str) := by
    rw [List.countP_map]; rfl
  rw [h1, hmap, List.countP_map]
  have : ((fun o => o == some r0.as_str) ∘ fun r => some r.as_str)
      = fun r : Role => r == r0 := by
    funext r
    cases r <;> cases r0 <;> simp [Role.as_str]
  rw [this]
  rfl

/-- C1: for 3 ≤ n ≤ 12 and any permutation-shuffle, `assign_roles` succeeds
and assigns exactly 1 dragon, `(n-3)/2` knights and `n-1-(n-3)/2` villagers,
every player getting a role drawn from these three with `knows_word` true
exactly for non-dragons; outside [3,12] it returns an error. -/
theorem assign_roles_spec (shuffle : List Role → List Role) (players : List Player)
    (hperm : ∀ l, (shuffle l).Perm l) :
    (3 ≤ players.length → players.length ≤ 12 →
      ∃ ps, assign_roles shuffle players = .ok ps ∧
        ps.length = players.length ∧
        ps.countP (fun p => p.role == some "dragon") = 1 ∧
        ps.countP (fun p => p.role == some "knight") = (players.length - 3) / 2 ∧
        ps.countP (fun p => p.role == some "villager")
          = players.length - 1 - (players.length - 3) / 2 ∧
        ∀ p ∈ ps, (p.role = some "villager" ∨ p.role = some "knight"
            ∨ p.role = some "dragon")
          ∧ (p.knows_word = true ↔ p.role ≠ some "dragon"))
    ∧ ((players.length < 3 ∨ 12 < players.length) →
      ∃ e, assign_roles shuffle players = .error e) := by
  constructor
  · intro h3 h12
    have hnlt : ¬ players.length < 3 := by omega
    have hngt : ¬ players.length > 12 := by omega
    have hperm' := hperm (rolePool players.length)
    have hlen : (shuffle (rolePool players.length)).length = players.length := by
      rw [hperm'.length_eq, rolePool_length players.length h3]
    refine ⟨List.zipWith assignOne players (shuffle (rolePool players.length)),
      ?_, ?_, ?_, ?_, ?_, ?_⟩
    · simp [assign_roles, hnlt, hngt, hlen]
    · rw [List.length_zipWith, hlen, Nat.min_self]
    · rw [show ("dragon" : String) = Role.Dragon.as_str from rfl,
        countP_role_eq_count players _ hlen.symm, hperm'.count_eq,
        rolePool_count_dragon]
    · rw [show ("knight" : String) = Role.Knight.as_str from rfl,
        countP_role_eq_count players _ hlen.symm, hperm'.count_eq,
        rolePool_count_knight]
    · rw [show ("villager" : String) = Role.Villager.as_str from rfl,
        countP_role_eq_count players _ hlen.symm, hperm'.count_eq,
        rolePool_count_villager]
    · intro p hp
      obtain ⟨a, r, _, _, hpeq⟩ := exists_of_mem_zipWith hp
      subst hpeq
      cases r <;> simp [assignOne, Role.as_str]
  · intro h
    rcases h with h | h
    · exact ⟨"Minimum 3 players required", by simp [assign_roles, h]⟩
    · refine ⟨"Maximum 12 players allowed", ?_⟩
      have hnlt : ¬ players.length < 3 := by omega
      simp [assign_roles, hnlt, h]

/-- Concrete check of `assign_roles_spec` on 5 players with the identity
shuffle. -/
theorem assign_roles_spec_witness :
    ∃ ps, assign_roles id (samplePlayers 5) = .ok ps ∧
      ps.length = (samplePlayers 5).length ∧
      ps.countP (fun p => p.role == some "dragon") = 1 ∧
      ps.countP (fun p => p.role == some "knight") = ((samplePlayers 5).length - 3) / 2 ∧
      ps.countP (fun p => p.role == some "villager")
        = (samplePlayers 5).length - 1 - ((samplePlayers 5).length - 3) / 2 ∧
      ∀ p ∈ ps, (p.role = some "villager" ∨ p.role = some "knight"
          ∨ p.role = some "dragon")
        ∧ (p.knows_word = true ↔ p.role ≠ some "dragon") :=
  (assign_roles_spec id (samplePlayers 5) (fun l => List.Perm.refl l)).1
    (by decide) (by decide)

/-! ### C2: win evaluation -/

theorem eq_of_countP_eq_one {α : Type} {p : α → Bool} {l : List α}
    (h : l.countP p = 1) {a b : α} (ha : a ∈ l) (hpa : p a = true)
    (hb : b ∈ l) (hpb : p b = true) : a = b := by
  rw [List.countP_eq_length_filter] at h
  obtain ⟨x, hx⟩ := List.length_eq_one.mp h
  have ha' : a ∈ l.filter p := List.mem_filter.mpr ⟨ha, hpa⟩
  have hb' : b ∈ l.filter p := List.mem_filter.mpr ⟨hb, hpb⟩
  rw [hx, List.mem_singleton] at ha' hb'
  rw [ha', hb']

/-- When exactly one player has the dragon role, `find?` returns it. -/
theorem findDragon_eq (s : GameSession) (d : Player)
    (hmem : d ∈ s.playerList) (hrole : d.role = some "dragon")
    (huniq : s.playerList.countP (fun p => p.role == some "dragon") = 1) :
    s.findDragon = some d := by
  unfold GameSession.findDragon
  cases hf : s.playerList.find? (fun p => p.role == some "dragon") with
  | none =>
    exfalso
    have := List.find?_eq_none.mp hf d hmem
    simp [hrole] at this
  | some d' =>
    have hp := List.find?_some hf
    have hm := List.mem_of_find?_eq_some hf
    have : d' = d := eq_of_countP_eq_one huniq hm hp hmem (by simp [hrole])
    rw [this]

/-- C2: with roles assigned (exactly one dragon `d`), the win evaluator
agrees between `determine_winner` and `GameSession::check_win_condition`,
returns no winner while the dragon is dead (dragon-guess pending), returns
`"dragon"` when the dragon is alive with at most 2 players alive, no
winner otherwise, and never returns `"villagers"`. -/
theorem determine_winner_spec (s : GameSession) (d : Player)
    (hmem : d ∈ s.playerList) (hrole : d.role = some "dragon")
    (huniq : s.playerList.countP (fun p => p.role == some "dragon") = 1) :
    s.check_win_condition = determine_winner s
    ∧ (d.is_alive = false → determine_winner s = none)
    ∧ (d.is_alive = true → s.aliveCount ≤ 2 → determine_winner s = some "dragon")
    ∧ (d.is_alive = true → 2 < s.aliveCount → determine_winner s = none)
    ∧ determine_winner s ≠ some "villagers" := by
  have hfind : s.findDragon = some d := findDragon_eq s d hmem hrole huniq
  have heq : s.check_win_condition = determine_winner s := by
    simp only [GameSession.check_win_condition, determine_winner,
      check_dragon_eliminated, check_dragon_survived, hfind]
    cases d.is_alive <;> by_cases h : s.aliveCount ≤ 2 <;> simp [h]
  refine ⟨heq, ?_, ?_, ?_, ?_⟩
  · intro h
    simp [determine_winner, check_dragon_eliminated, hfind, h]
  · intro h h2
    simp [determine_winner, check_dragon_eliminated, check_dragon_survived,
      hfind, h, h2]
  · intro h h2
    have h3 : ¬ s.aliveCount ≤ 2 := by omega
    simp [determine_winner, check_dragon_eliminated, check_dragon_survived,
      hfind, h, h3]
  · unfold determine_winner
    by_cases h1 : check_dragon_eliminated s
      <;> by_cases h2 : check_dragon_survived s <;> simp [h1, h2]

/-! Concrete sessions for the witnesses. -/

def dragonPlayer : Player :=
  { id := "d1", nickname := "Dara", role := some "dragon", is_alive := true,
    is_host := true, knows_word := false, joined_at := 0 }

def villagerPlayer (id : String) : Player :=
  { id := id, nickname := "V" ++ id, role := some "villager", is_alive := true,
    is_host := false, knows_word := true, joined_at := 0 }

/-- A started 3-player session: dragon `d1` plus villagers `v1`, `v2`. -/
def sessionPlaying : GameSession :=
  { GameSession.new "g1" 0 with
    state := GameState.Playing,
    players := [("d1", dragonPlayer), ("v1", villagerPlayer "v1"),
      ("v2", villagerPlayer "v2")],
    villager_word := some "castle",
    knight_word := some "fortress",
    started_at := some 0 }

/-- Concrete check of `determine_winner_spec` on a 3-player session. -/
theorem determine_winner_spec_witness :
    sessionPlaying.check_win_condition = determine_winner sessionPlaying
    ∧ (dragonPlayer.is_alive = false → determine_winner sessionPlaying = none)
    ∧ (dragonPlayer.is_alive = true → sessionPlaying.aliveCount ≤ 2 →
        determine_winner sessionPlaying = some "dragon")
    ∧ (dragonPlayer.is_alive = true → 2 < sessionPlaying.aliveCount →
        determine_winner sessionPlaying = none)
    ∧ determine_winner sessionPlaying ≠ some "villagers" :=
  determine_winner_spec sessionPlaying dragonPlayer (by decide) (by decide)
    (by decide)

/-! ### C3: vote tallying -/

theorem foldr_max_mem : ∀ (l : List Nat), l ≠ [] → l.foldr max 0 ∈ l
  | [a], _ => by simp
  | a :: b :: l, _ => by
    have ih := foldr_max_mem (b :: l) (by simp)
    rw [List.foldr_cons]
    rcases max_choice a ((b :: l).foldr max 0) with h | h <;> rw [h]
    · exact List.mem_cons_self _ _
    · exact List.mem_cons_of_mem _ ih

theorem foldr_max_ge (l : List Nat) (x : Nat) (hx : x ∈ l) :
    x ≤ l.foldr max 0 := by
  induction l with
  | nil => simp at hx
  | cons a l ih =>
    rw [List.foldr_cons]
    rcases List.mem_cons.mp hx with h | h
    · subst h; exact Nat.le_max_left _ _
    · exact le_trans (ih h) (Nat.le_max_right _ _)

theorem getD_mem {α : Type} (l : List α) (k : Nat) (d : α) (h : l ≠ []) :
    l.getD (k % l.length) d ∈ l := by
  have hlen : 0 < l.length := List.length_pos.mpr h
  have hk : k % l.length < l.length := Nat.mod_lt _ hlen
  rw [List.getD_eq_getElem l d hk]
  exact List.getElem_mem hk

theorem getD_surj {α : Type} (l : List α) (d : α) (t : α) (ht : t ∈ l) :
    ∃ k, l.getD (k % l.length) d = t := by
  obtain ⟨n, hn, he⟩ := List.mem_iff_getElem.mp ht
  refine ⟨n, ?_⟩
  rw [Nat.mod_eq_of_lt hn, List.getD_eq_getElem l d hn]
  exact he

/-- Every vote target attains at most the maximum. -/
theorem voteCount_le_maxVotes (votes : List (String × String)) (t : String)
    (ht : t ∈ voteTargets votes) : voteCount votes t ≤ maxVotes votes :=
  foldr_max_ge _ _ (List.mem_map_of_mem (voteCount votes) ht)

/-- With at least one vote, some target is tied at the maximum. -/
theorem tiedPlayers_ne_nil (votes : List (String × String)) (hne : votes ≠ []) :
    tiedPlayers votes ≠ [] := by
  have htne : voteTargets votes ≠ [] := by
    obtain ⟨kv, hkv⟩ := List.exists_mem_of_ne_nil votes hne
    have : kv.2 ∈ voteTargets votes :=
      List.mem_dedup.mpr (List.mem_map_of_mem Prod.snd hkv)
    exact List.ne_nil_of_mem this
  have hmapne : (voteTargets votes).map (voteCount votes) ≠ [] := by
    simpa using htne
  have hmem := foldr_max_mem _ hmapne
  obtain ⟨t0, ht0, he0⟩ := List.mem_map.mp hmem
  refine List.ne_nil_of_mem (l := tiedPlayers votes) (a := t0) ?_
  exact List.mem_filter.mpr ⟨ht0, by simp [he0, maxVotes]⟩

/-- Members of the tied list are vote targets with the maximum count. -/
theorem mem_tiedPlayers (votes : List (String × String)) (t : String)
    (ht : t ∈ tiedPlayers votes) :
    t ∈ voteTargets votes ∧ voteCount votes t = maxVotes votes := by
  have h := List.mem_filter.mp ht
  exact ⟨h.1, by simpa using h.2⟩

/-- Looking up after the `tally_votes` in-place update: the eliminated key
maps to its updated record, every other key is untouched. -/
theorem lookupKV_map_update {α : Type} (m : List (String × α)) (e k : String)
    (f : α → α) :
    lookupKV k (m.map (fun kv => if kv.1 = e then (kv.1, f kv.2) else kv))
      = if k = e then (lookupKV k m).map f else lookupKV k m := by
  induction m with
  | nil => by_cases h : k = e <;> simp [lookupKV, h]
  | cons kv m ih =>
    simp only [List.map_cons]
    by_cases h1 : kv.1 = e
    · by_cases h2 : kv.1 = k
      · have hke : k = e := by rw [← h2, h1]
        simp [lookupKV, h1, h2, hke]
      · have hke : ¬ k = e := fun hh => h2 (by rw [h1, ← hh])
        have hek : ¬ e = k := fun hh => hke hh.symm
        simp [lookupKV, h1, h2, hke, hek, ih]
    · by_cases h2 : kv.1 = k
      · have hke : ¬ k = e := fun hh => h1 (h2.trans hh)
        simp [lookupKV, h1, h2, hke]
      · simp [lookupKV, h1, h2, ih]

/-- A vote target is a key of the votes-map image. -/
theorem mem_voteTargets_exists (votes : List (String × String)) (t : String)
    (ht : t ∈ voteTargets votes) : ∃ kv ∈ votes, kv.2 = t := by
  have := List.mem_dedup.mp ht
  obtain ⟨kv, hkv, he⟩ := List.mem_map.mp this
  exact ⟨kv, hkv, he⟩

/-- Closed form of `tally_votes` when votes exist and the chosen target is
a player. -/
theorem tally_votes_eq (s : GameSession) (hne : s.votes ≠ []) (k : Nat)
    (p : Player)
    (hp : lookupKV ((tiedPlayers s.votes).getD (k % (tiedPlayers s.votes).length) "")
      s.players = some p) :
    s.tally_votes k =
      ({ s with
          players := s.players.map (fun kv =>
            if kv.1 = (tiedPlayers s.votes).getD (k % (tiedPlayers s.votes).length) ""
            then (kv.1, killPlayer kv.2) else kv),
          eliminated_player_id :=
            some ((tiedPlayers s.votes).getD (k % (tiedPlayers s.votes).length) ""),
          last_elimination := some
            { eliminated_id :=
                (tiedPlayers s.votes).getD (k % (tiedPlayers s.votes).length) "",
              eliminated_nickname := p.nickname,
              eliminated_role := p.role,
              vote_counts := voteCountsList s.votes,
              was_tie := decide ((tiedPlayers s.votes).length > 1) } },
        .eliminated
          { eliminated_id :=
              (tiedPlayers s.votes).getD (k % (tiedPlayers s.votes).length) "",
            eliminated_nickname := p.nickname,
            eliminated_role := p.role,
            vote_counts := voteCountsList s.votes,
            was_tie := decide ((tiedPlayers s.votes).length > 1) }) := by
  have hie : s.votes.isEmpty = false := by
    cases hv : s.votes with
    | nil => exact absurd hv hne
    | cons a t => rfl
  simp only [GameSession.tally_votes, hie, Bool.false_eq_true, if_false, hp]

/-- C3: with at least one vote and all vote targets present among the
players, every tie-break draw `k` eliminates a tied maximum-vote target:
that player's `is_alive` becomes false, and the stored last-elimination
record carries the id, nickname, role, full vote counts and a tie flag
true exactly when several targets share the maximum; conversely every
tied target is the eliminated one for some draw. -/
theorem tally_votes_spec (s : GameSession) (hne : s.votes ≠ [])
    (htargets : ∀ kv ∈ s.votes, (lookupKV kv.2 s.players).isSome = true) :
    (∀ k : Nat, ∃ details p,
      (s.tally_votes k).2 = .eliminated details
      ∧ lookupKV details.eliminated_id s.players = some p
      ∧ details.eliminated_id ∈ tiedPlayers s.votes
      ∧ voteCount s.votes details.eliminated_id = maxVotes s.votes
      ∧ (∀ t ∈ voteTargets s.votes, voteCount s.votes t ≤ maxVotes s.votes)
      ∧ lookupKV details.eliminated_id (s.tally_votes k).1.players
          = some { p with is_alive := false }
      ∧ (∀ k2, k2 ≠ details.eliminated_id →
          lookupKV k2 (s.tally_votes k).1.players = lookupKV k2 s.players)
      ∧ (s.tally_votes k).1.last_elimination = some details
      ∧ (s.tally_votes k).1.eliminated_player_id = some details.eliminated_id
      ∧ details.eliminated_nickname = p.nickname
      ∧ details.eliminated_role = p.role
      ∧ details.vote_counts = voteCountsList s.votes
      ∧ (details.was_tie = true ↔ 1 < (tiedPlayers s.votes).length))
    ∧ (∀ t ∈ tiedPlayers s.votes, ∃ k : Nat, ∃ details,
        (s.tally_votes k).2 = .eliminated details
        ∧ details.eliminated_id = t) := by
  have htied := tiedPlayers_ne_nil s.votes hne
  have hlookup : ∀ e ∈ tiedPlayers s.votes,
      ∃ p, lookupKV e s.players = some p := by
    intro e he
    have hmemt := (mem_tiedPlayers s.votes e he).1
    obtain ⟨kv, hkv, hkve⟩ := mem_voteTargets_exists s.votes e hmemt
    have := htargets kv hkv
    rw [hkve] at this
    exact Option.isSome_iff_exists.mp this
  constructor
  · intro k
    set e := (tiedPlayers s.votes).getD (k % (tiedPlayers s.votes).length) ""
      with hedef
    have hein : e ∈ tiedPlayers s.votes := getD_mem _ k "" htied
    obtain ⟨p, hp⟩ := hlookup e hein
    have heq := tally_votes_eq s hne k p (hedef ▸ hp)
    refine ⟨_, p, by rw [heq], hp, hein,
      (mem_tiedPlayers s.votes e hein).2,
      fun t ht => voteCount_le_maxVotes s.votes t ht, ?_, ?_, ?_, ?_, rfl, rfl,
      rfl, by simp⟩
    · rw [heq]
      simp only
      rw [lookupKV_map_update, if_pos rfl, hp]
      rfl
    · intro k2 hk2
      rw [heq]
      simp only
      rw [lookupKV_map_update, if_neg hk2]
    · rw [heq]
    · rw [heq]
  · intro t ht
    obtain ⟨k, hk⟩ := getD_surj (tiedPlayers s.votes) "" t ht
    obtain ⟨p, hp⟩ := hlookup t ht
    have heq := tally_votes_eq s hne k p (by rw [hk]; exact hp)
    refine ⟨k, _, by rw [heq], ?_⟩
    simp only
    exact hk

/-- A 3-player voting session: everyone voted, `v1` has 2 votes. -/
def sessionVoting : GameSession :=
  { sessionPlaying with
    state := GameState.Voting,
    votes := [("d1", "v1"), ("v2", "v1"), ("v1", "d1")] }

/-- Concrete check of `tally_votes_spec` on `sessionVoting`. -/
theorem tally_votes_spec_witness :
    (∀ k : Nat, ∃ details p,
      (sessionVoting.tally_votes k).2 = .eliminated details
      ∧ lookupKV details.eliminated_id sessionVoting.players = some p
      ∧ details.eliminated_id ∈ tiedPlayers sessionVoting.votes
      ∧ voteCount sessionVoting.votes details.eliminated_id
          = maxVotes sessionVoting.votes
      ∧ (∀ t ∈ voteTargets sessionVoting.votes,
          voteCount sessionVoting.votes t ≤ maxVotes sessionVoting.votes)
      ∧ lookupKV details.eliminated_id (sessionVoting.tally_votes k).1.players
          = some { p with is_alive := false }
      ∧ (∀ k2, k2 ≠ details.eliminated_id →
          lookupKV k2 (sessionVoting.tally_votes k).1.players
            = lookupKV k2 sessionVoting.players)
      ∧ (sessionVoting.tally_votes k).1.last_elimination = some details
      ∧ (sessionVoting.tally_votes k).1.eliminated_player_id
          = some details.eliminated_id
      ∧ details.eliminated_nickname = p.nickname
      ∧ details.eliminated_role = p.role
      ∧ details.vote_counts = voteCountsList sessionVoting.votes
      ∧ (details.was_tie = true ↔ 1 < (tiedPlayers sessionVoting.votes).length))
    ∧ (∀ t ∈ tiedPlayers sessionVoting.votes, ∃ k : Nat, ∃ details,
        (sessionVoting.tally_votes k).2 = .eliminated details
        ∧ details.eliminated_id = t) :=
  tally_votes_spec sessionVoting (by decide) (by decide)

/-! ### C4: personalized snapshot and hidden information -/

/-- Closed form of `get_state_for_player` for a known participant. -/
theorem get_state_eq (s : GameSession) (pid : String) (player : Player)
    (hp : lookupKV pid s.players = some player) :
    s.get_state_for_player pid =
      if s.state = GameState.Finished then some (snapshotFinished s pid player)
      else some (snapshotBase s pid player) := by
  unfold GameSession.get_state_for_player
  rw [hp]

/-- C4: for a participant of the session, the personalized snapshot —
before `Finished` — omits every roster entry's role, shows no word to a
player with `knows_word = false`, and carries no winner/word/guess keys;
it depends on the votes map only through its size and whether the
requesting player has voted (so other players' vote targets are never
exposed); once `Finished`, it reveals every player's role, the winner,
both words and the dragon's guess. -/
theorem get_state_for_player_spec (s : GameSession) (player_id : String)
    (player : Player) (hp : lookupKV player_id s.players = some player)
    (v : StateView) (hv : s.get_state_for_player player_id = some v) :
    (s.state ≠ GameState.Finished →
      (∀ pv ∈ v.players, pv.role_entry = none)
      ∧ (player.knows_word = false → v.your_word = none)
      ∧ v.winner_entry = none ∧ v.villager_word_entry = none
      ∧ v.knight_word_entry = none ∧ v.dragon_guess_entry = none)
    ∧ v.votes_submitted = s.votes.length
    ∧ v.has_voted = (lookupKV player_id s.votes).isSome
    ∧ (∀ votes2 : List (String × String),
        votes2.length = s.votes.length →
        (lookupKV player_id votes2).isSome = (lookupKV player_id s.votes).isSome →
        GameSession.get_state_for_player { s with votes := votes2 } player_id
          = some v)
    ∧ (s.state = GameState.Finished →
      v.players = s.playerList.map (fun p => p.to_dict true)
      ∧ v.winner_entry = some s.winner
      ∧ v.villager_word_entry = some s.villager_word
      ∧ v.knight_word_entry = some s.knight_word
      ∧ v.dragon_guess_entry = some s.dragon_guess) := by
  rw [get_state_eq s player_id player hp] at hv
  have hbase : ∀ votes2 : List (String × String),
      votes2.length = s.votes.length →
      (lookupKV player_id votes2).isSome = (lookupKV player_id s.votes).isSome →
      snapshotBase { s with votes := votes2 } player_id player
        = snapshotBase s player_id player := by
    intro votes2 hlen hhv
    simp only [snapshotBase, GameSession.playerList, GameSession.aliveCount,
      GameSession.can_start]
    rw [hlen, hhv]
  by_cases hf : s.state = GameState.Finished
  · rw [if_pos hf] at hv
    have hveq : v = snapshotFinished s player_id player :=
      (Option.some.inj hv).symm
    subst hveq
    refine ⟨fun h => absurd hf h, rfl, rfl, ?_, fun _ => ⟨rfl, rfl, rfl, rfl, rfl⟩⟩
    intro votes2 hlen hhv
    rw [get_state_eq { s with votes := votes2 } player_id player hp]
    have hst : ({ s with votes := votes2 } : GameSession).state = s.state := rfl
    rw [hst, if_pos hf]
    have : snapshotFinished { s with votes := votes2 } player_id player
        = snapshotFinished s player_id player := by
      simp only [snapshotFinished, GameSession.playerList]
      rw [hbase votes2 hlen hhv]
    rw [this]
  · rw [if_neg hf] at hv
    have hveq : v = snapshotBase s player_id player :=
      (Option.some.inj hv).symm
    subst hveq
    refine ⟨fun _ => ⟨?_, ?_, rfl, rfl, rfl, rfl⟩, rfl, rfl, ?_, fun h => absurd h hf⟩
    · intro pv hpv
      obtain ⟨q, _, hq⟩ := List.mem_map.mp hpv
      rw [← hq]
      rfl
    · intro h
      simp [snapshotBase, h]
    · intro votes2 hlen hhv
      rw [get_state_eq { s with votes := votes2 } player_id player hp]
      have hst : ({ s with votes := votes2 } : GameSession).state = s.state := rfl
      rw [hst, if_neg hf]
      rw [hbase votes2 hlen hhv]

/-- Concrete check of `get_state_for_player_spec`: the dragon's view of
`sessionVoting`. -/
theorem get_state_for_player_spec_witness :
    ∃ v, sessionVoting.get_state_for_player "d1" = some v
    ∧ ((sessionVoting.state ≠ GameState.Finished →
        (∀ pv ∈ v.players, pv.role_entry = none)
        ∧ (dragonPlayer.knows_word = false → v.your_word = none)
        ∧ v.winner_entry = none ∧ v.villager_word_entry = none
        ∧ v.knight_word_entry = none ∧ v.dragon_guess_entry = none)
      ∧ v.votes_submitted = sessionVoting.votes.length
      ∧ v.has_voted = (lookupKV "d1" sessionVoting.votes).isSome) := by
  refine ⟨snapshotBase sessionVoting "d1" dragonPlayer, by decide, ?_⟩
  have h := get_state_for_player_spec sessionVoting "d1" dragonPlayer
    (by decide) (snapshotBase sessionVoting "d1" dragonPlayer) (by decide)
  exact ⟨h.1, h.2.1, h.2.2.1⟩

/-! ### Map insertion lemmas -/

theorem lookupKV_append {α : Type} (k : String) (m1 m2 : List (String × α)) :
    lookupKV k (m1 ++ m2) =
      match lookupKV k m1 with
      | some v => some v
      | none => lookupKV k m2 := by
  induction m1 with
  | nil => simp [lookupKV]
  | cons kv m ih => by_cases h : kv.1 = k <;> simp [lookupKV, h, ih]

theorem lookupKV_replace_self {α : Type} (k : String) (v : α)
    (m : List (String × α)) :
    lookupKV k (m.map (fun kv => if kv.1 = k then (k, v) else kv))
      = (lookupKV k m).map (fun _ => v) := by
  induction m with
  | nil => simp [lookupKV]
  | cons kv m ih => by_cases h : kv.1 = k <;> simp [lookupKV, h, ih]

theorem lookupKV_replace_ne {α : Type} (k k2 : String) (hne : k2 ≠ k) (v : α)
    (m : List (String × α)) :
    lookupKV k2 (m.map (fun kv => if kv.1 = k then (k, v) else kv))
      = lookupKV k2 m := by
  induction m with
  | nil => simp [lookupKV]
  | cons kv m ih =>
    by_cases h : kv.1 = k
    · have hk2 : ¬ k = k2 := fun hh => hne hh.symm
      have hkv2 : ¬ kv.1 = k2 := by rw [h]; exact hk2
      simp [lookupKV, h, hk2, hkv2, hne, ih]
    · by_cases h2 : kv.1 = k2 <;> simp [lookupKV, h, h2, hne, ih]

theorem lookupKV_insert_self {α : Type} (k : String) (v : α)
    (m : List (String × α)) :
    lookupKV k (insertKV k v m) = some v := by
  unfold insertKV
  cases h : lookupKV k m with
  | some w => rw [lookupKV_replace_self, h]; rfl
  | none => rw [lookupKV_append, h]; simp [lookupKV]

theorem lookupKV_insert_ne {α : Type} (k k2 : String) (hne : k2 ≠ k) (v : α)
    (m : List (String × α)) :
    lookupKV k2 (insertKV k v m) = lookupKV k2 m := by
  unfold insertKV
  cases h : lookupKV k m with
  | some w => exact lookupKV_replace_ne k k2 hne v m
  | none =>
    rw [lookupKV_append]
    have hk2 : ¬ k = k2 := fun hh => hne hh.symm
    cases h2 : lookupKV k2 m <;> simp [lookupKV, hk2, h2]

theorem insertKV_of_lookup_none {α : Type} (k : String) (v : α)
    (m : List (String × α)) (h : lookupKV k m = none) :
    insertKV k v m = m ++ [(k, v)] := by
  unfold insertKV
  rw [h]

/-! ### C5: dragon guess -/

/-- The session after the dragon was voted out: phase `DragonGuess`. -/
def sessionDragonGuess : GameSession :=
  { sessionPlaying with
    state := GameState.DragonGuess,
    players := [("d1", killPlayer dragonPlayer), ("v1", villagerPlayer "v1"),
      ("v2", villagerPlayer "v2")] }

/-- C5 counterexample: in phase `DragonGuess`, with the caller holding the
dragon role, the whitespace guess `"   "` is NOT compared against the
primary word — the route rejects it with an error and the session keeps
its phase, contradicting the claim that every guess string is compared
and finishes the game. -/
theorem guess_word_claim_counterexample :
    sessionDragonGuess.state = GameState.DragonGuess
    ∧ (lookupKV "d1" sessionDragonGuess.players).map Player.role
        = some (some "dragon")
    ∧ guess_word 0 sessionDragonGuess "d1" "   " = .error "Guess cannot be empty" :=
  ⟨rfl, rfl, rfl⟩

/-- C5 (amended): `guess_word` requires the dragon role and phase
`DragonGuess` (else an error); when allowed — and additionally provided
the trimmed lowercased guess is non-empty and at most 50 bytes — the
guess is compared case-insensitively after trimming against the primary
word, recorded as `dragon_guess`, and the session finishes with winner
`dragon` on a match and `villagers` otherwise, stamping `finished_at`. -/
theorem guess_word_spec (now : Int) (s : GameSession) (player_id guess : String)
    (player : Player) (hp : lookupKV player_id s.players = some player) :
    (player.role ≠ some "dragon" →
      guess_word now s player_id guess = .error "Only Dragon can guess the word")
    ∧ (player.role = some "dragon" → s.state ≠ GameState.DragonGuess →
      guess_word now s player_id guess = .error "Not in dragon guess phase")
    ∧ (∀ w, player.role = some "dragon" → s.state = GameState.DragonGuess →
      s.villager_word = some w →
      utf8Len (lowerStr (trimStr guess)) ≤ 50 →
      (lowerStr (trimStr guess)).data.isEmpty = false →
      ∃ s2, guess_word now s player_id guess
          = .ok (s2, lowerStr (trimStr guess) == lowerStr w)
        ∧ s2.state = GameState.Finished
        ∧ s2.winner = some (if lowerStr (trimStr guess) == lowerStr w
            then "dragon" else "villagers")
        ∧ s2.dragon_guess = some (lowerStr (trimStr guess))
        ∧ s2.finished_at = some now
        ∧ s2.players = s.players) := by
  refine ⟨?_, ?_, ?_⟩
  · intro hrole
    simp only [guess_word, hp]
    rw [if_pos hrole]
  · intro hrole hst
    simp only [guess_word, hp]
    rw [if_neg (not_not_intro hrole), if_pos hst]
  · intro w hrole hst hw h50 hne
    simp only [guess_word, hp, hw]
    rw [if_neg (not_not_intro hrole), if_neg (not_not_intro hst)]
    rw [if_neg (by omega), if_neg (by rw [hne]; exact Bool.false_ne_true)]
    refine ⟨_, rfl, rfl, ?_, rfl, rfl, rfl⟩
    by_cases hc : lowerStr (trimStr guess) == lowerStr w <;>
      simp [transition_to_finished, hc]

/-- Concrete check of `guess_word_spec`: the dragon guesses `" Castle "`
against primary word `"castle"` and wins. -/
theorem guess_word_spec_witness :
    ∃ s2, guess_word 7 sessionDragonGuess "d1" " Castle "
        = .ok (s2, lowerStr (trimStr " Castle ") == lowerStr "castle")
      ∧ s2.state = GameState.Finished
      ∧ s2.winner = some (if lowerStr (trimStr " Castle ") == lowerStr "castle"
          then "dragon" else "villagers")
      ∧ s2.dragon_guess = some (lowerStr (trimStr " Castle "))
      ∧ s2.finished_at = some 7
      ∧ s2.players = sessionDragonGuess.players :=
  (guess_word_spec 7 sessionDragonGuess "d1" " Castle " (killPlayer dragonPlayer)
    (by decide)).2.2 "castle" (by decide) (by decide) (by decide) (by decide)
    (by decide)

/-! ### C6: vote submission -/

/-- C6: `submit_vote` succeeds exactly when the phase is `Voting` and both
voter and target exist and are alive; on success the voter's vote is
recorded for the target, overwriting any previous vote by that voter,
other voters' entries are untouched, and every other session field is
unchanged. -/
theorem submit_vote_spec (s : GameSession) (voter_id target_id : String) :
    ((∃ s2, s.submit_vote voter_id target_id = .ok s2) ↔
      (s.state = GameState.Voting
       ∧ (∃ v, lookupKV voter_id s.players = some v ∧ v.is_alive = true)
       ∧ (∃ t, lookupKV target_id s.players = some t ∧ t.is_alive = true)))
    ∧ (∀ s2, s.submit_vote voter_id target_id = .ok s2 →
      s2.votes = insertKV voter_id target_id s.votes
      ∧ lookupKV voter_id s2.votes = some target_id
      ∧ (∀ k, k ≠ voter_id → lookupKV k s2.votes = lookupKV k s.votes)
      ∧ s2.players = s.players ∧ s2.state = s.state
      ∧ s2.game_id = s.game_id ∧ s2.villager_word = s.villager_word
      ∧ s2.knight_word = s.knight_word ∧ s2.winner = s.winner
      ∧ s2.dragon_guess = s.dragon_guess
      ∧ s2.eliminated_player_id = s.eliminated_player_id
      ∧ s2.last_elimination = s.last_elimination
      ∧ s2.player_order = s.player_order
      ∧ s2.created_at = s.created_at ∧ s2.started_at = s.started_at
      ∧ s2.finished_at = s.finished_at
      ∧ s2.voting_timer_seconds = s.voting_timer_seconds
      ∧ s2.voting_started_at = s.voting_started_at) := by
  by_cases h1 : s.state = GameState.Voting
  · cases hv : lookupKV voter_id s.players with
    | none =>
      constructor
      · simp [GameSession.submit_vote, not_not_intro h1, hv]
      · intro s2 hs2
        simp [GameSession.submit_vote, not_not_intro h1, hv] at hs2
    | some voter =>
      cases ht : lookupKV target_id s.players with
      | none =>
        constructor
        · simp [GameSession.submit_vote, not_not_intro h1, hv, ht, h1]
        · intro s2 hs2
          simp [GameSession.submit_vote, not_not_intro h1, hv, ht] at hs2
      | some target =>
        by_cases ha : voter.is_alive = true
        · by_cases hb : target.is_alive = true
          · constructor
            · simp [GameSession.submit_vote, not_not_intro h1, hv, ht, ha, hb, h1]
            · intro s2 hs2
              simp only [GameSession.submit_vote, not_not_intro h1, hv, ht,
                if_neg (not_not_intro ha), if_neg (not_not_intro hb),
                if_false] at hs2
              obtain rfl : ({ s with
                  votes := insertKV voter_id target_id s.votes } : GameSession)
                  = s2 := by
                cases hs2
                rfl
              refine ⟨rfl, lookupKV_insert_self voter_id target_id s.votes,
                fun k hk => lookupKV_insert_ne voter_id k hk target_id s.votes,
                rfl, rfl, rfl, rfl, rfl, rfl, rfl, rfl, rfl, rfl, rfl, rfl,
                rfl, rfl, rfl⟩
          · have hb2 : target.is_alive = false := by
              cases hx : target.is_alive
              · rfl
              · exact absurd hx hb
            constructor
            · simp [GameSession.submit_vote, not_not_intro h1, hv, ht, ha, hb2, h1]
            · intro s2 hs2
              simp [GameSession.submit_vote, not_not_intro h1, hv, ht, ha,
                hb2] at hs2
        · have ha2 : voter.is_alive = false := by
            cases hx : voter.is_alive
            · rfl
            · exact absurd hx ha
          constructor
          · simp [GameSession.submit_vote, not_not_intro h1, hv, ht, ha2, h1]
          · intro s2 hs2
            simp [GameSession.submit_vote, not_not_intro h1, hv, ht, ha2] at hs2
  · constructor
    · simp [GameSession.submit_vote, h1]
    · intro s2 hs2
      simp [GameSession.submit_vote, h1] at hs2

/-- Concrete check of `submit_vote_spec`: `d1` re-votes, now for `v2`,
overwriting the earlier vote for `v1`. -/
theorem submit_vote_spec_witness :
    ∃ s2, sessionVoting.submit_vote "d1" "v2" = .ok s2
      ∧ lookupKV "d1" s2.votes = some "v2"
      ∧ (∀ k, k ≠ "d1" → lookupKV k s2.votes = lookupKV k sessionVoting.votes)
      ∧ s2.players = sessionVoting.players := by
  have h := submit_vote_spec sessionVoting "d1" "v2"
  obtain ⟨s2, hs2⟩ := h.1.mpr ⟨by decide,
    ⟨dragonPlayer, by decide, by decide⟩,
    ⟨villagerPlayer "v2", by decide, by decide⟩⟩
  have h2 := h.2 s2 hs2
  exact ⟨s2, hs2, h2.2.1, h2.2.2.1, h2.2.2.2.1⟩

/-! ### C7: single-host invariant under lobby joins and leaves -/

/-- A lobby operation: a join (with the UUID the code would draw) or a
voluntary leave. -/
inductive LobbyOp where
  | addP (nickname id : String)
  | removeP (id : String)

/-- Run one lobby operation; a failed join (non-lobby phase) leaves the
session unchanged. -/
def applyOp (now : Int) (s : GameSession) : LobbyOp → GameSession
  | .addP nickname id =>
    match s.add_player nickname id now with
    | .ok (s2, _) => s2
    | .error _ => s
  | .removeP id => s.remove_player id

def applyOps (now : Int) (s : GameSession) : List LobbyOp → GameSession
  | [] => s
  | op :: rest => applyOps now (applyOp now s op) rest

/-- Every join in the run uses an id not currently in the players map —
the model of `Uuid::new_v4()` never colliding. -/
def freshRun (now : Int) (s : GameSession) : List LobbyOp → Bool
  | [] => true
  | op :: rest =>
    (match op with
     | .addP _ id => (lookupKV id s.players).isNone
     | .removeP _ => true)
    && freshRun now (applyOp now s op) rest

/-- Number of participants with `is_host = true`. -/
def hostCount (s : GameSession) : Nat :=
  s.players.countP (fun kv => kv.2.is_host)

/-- The claimed invariant: while participants exist, exactly one is host. -/
def hostOk (s : GameSession) : Prop :=
  s.players ≠ [] → hostCount s = 1

theorem applyOp_add_eq (now : Int) (s : GameSession) (nickname id : String)
    (hst : s.state = GameState.Lobby) :
    applyOp now s (.addP nickname id)
      = { s with players :=
          insertKV id (Player.new id nickname s.players.isEmpty now) s.players } := by
  simp only [applyOp]
  unfold GameSession.add_player
  rw [if_neg (show ¬ (s.state ≠ GameState.Lobby) from fun hc => hc hst)]
  rfl

theorem applyOp_add_eq_of_ne (now : Int) (s : GameSession) (nickname id : String)
    (hst : s.state ≠ GameState.Lobby) :
    applyOp now s (.addP nickname id) = s := by
  simp only [applyOp]
  unfold GameSession.add_player
  rw [if_pos hst]

theorem hostOk_add (now : Int) (s : GameSession) (nickname id : String)
    (hfresh : lookupKV id s.players = none) (h : hostOk s) :
    hostOk (applyOp now s (.addP nickname id)) := by
  by_cases hst : s.state = GameState.Lobby
  · rw [applyOp_add_eq now s nickname id hst]
    intro _
    show (insertKV id (Player.new id nickname s.players.isEmpty now)
      s.players).countP (fun kv => kv.2.is_host) = 1
    rw [insertKV_of_lookup_none id _ s.players hfresh, List.countP_append]
    cases hp : s.players with
    | nil =>
      simp [Player.new, List.countP_cons]
    | cons kv rest =>
      have h1 : hostCount s = 1 := h (by rw [hp]; exact List.cons_ne_nil kv rest)
      unfold hostCount at h1
      rw [hp] at h1
      rw [h1]
      simp [Player.new, List.countP_cons]
  · rw [applyOp_add_eq_of_ne now s nickname id hst]
    exact h

theorem hostOk_remove (s : GameSession) (id : String) (h : hostOk s) :
    hostOk (s.remove_player id) := by
  simp only [GameSession.remove_player]
  by_cases hemp : (eraseKV id s.players).isEmpty
  · rw [if_neg (fun hc => hc.1 hemp)]
    intro hne
    exact absurd (List.isEmpty_iff.mp hemp) hne
  · by_cases hany : (eraseKV id s.players).any (fun kv => kv.2.is_host)
    · rw [if_neg (fun hc => hc.2 hany)]
      intro _
      show (eraseKV id s.players).countP (fun kv => kv.2.is_host) = 1
      have hple : (eraseKV id s.players).countP (fun kv => kv.2.is_host)
          ≤ s.players.countP (fun kv => kv.2.is_host) := by
        unfold eraseKV
        exact (List.filter_sublist s.players).countP_le _
      have hpos : 0 < (eraseKV id s.players).countP (fun kv => kv.2.is_host) := by
        obtain ⟨kv, hkv, hh⟩ := List.any_eq_true.mp hany
        exact List.countP_pos_iff.mpr ⟨kv, hkv, hh⟩
      have hpne : s.players ≠ [] := by
        intro hnil
        apply hemp
        rw [hnil]
        rfl
      have h1 := h hpne
      unfold hostCount at h1
      omega
    · rw [if_pos ⟨hemp, hany⟩]
      cases hps : eraseKV id s.players with
      | nil => exact absurd (by rw [hps]; rfl) hemp
      | cons kv rest =>
        obtain ⟨k0, p0⟩ := kv
        intro _
        have hrest : rest.countP (fun kv => kv.2.is_host) = 0 := by
          rw [List.countP_eq_zero]
          intro a ha hh
          rw [hps] at hany
          exact hany (List.any_eq_true.mpr ⟨a, List.mem_cons_of_mem _ ha, hh⟩)
        show ((k0, { p0 with is_host := true }) :: rest).countP
          (fun kv => kv.2.is_host) = 1
        simp [List.countP_cons, hrest]

/-- C7: starting from a fresh session, after any sequence of joins and
leaves (joins drawing fresh UUIDs), whenever participants remain exactly
one of them is host; moreover the first joiner of a fresh session is
made host. -/
theorem host_invariant_spec (gid : String) (now : Int) (ops : List LobbyOp)
    (hfresh : freshRun now (GameSession.new gid now) ops = true) :
    hostOk (applyOps now (GameSession.new gid now) ops)
    ∧ (∀ nickname id s2 p,
        (GameSession.new gid now).add_player nickname id now = .ok (s2, p) →
        p.is_host = true) := by
  constructor
  · have hgen : ∀ (ops2 : List LobbyOp) (s : GameSession), hostOk s →
        freshRun now s ops2 = true → hostOk (applyOps now s ops2) := by
      intro ops2
      induction ops2 with
      | nil => intro s h _; exact h
      | cons op rest ih =>
        intro s h hf
        unfold freshRun at hf
        rw [Bool.and_eq_true] at hf
        unfold applyOps
        refine ih (applyOp now s op) ?_ hf.2
        cases op with
        | addP nickname id =>
          exact hostOk_add now s nickname id
            (Option.isNone_iff_eq_none.mp hf.1) h
        | removeP id => exact hostOk_remove s id h
    exact hgen ops (GameSession.new gid now) (fun hc => absurd rfl hc) hfresh
  · intro nickname id s2 p hadd
    unfold GameSession.add_player at hadd
    rw [if_neg (show ¬ ((GameSession.new gid now).state ≠ GameState.Lobby)
      from fun hc => hc rfl)] at hadd
    injection hadd with hpair
    injection hpair with h1 h2
    rw [← h2]
    rfl

/-- Concrete check of `host_invariant_spec`: join three players, remove
the host, one host remains. -/
theorem host_invariant_spec_witness :
    hostOk (applyOps 0 (GameSession.new "g7" 0)
      [LobbyOp.addP "A" "a", LobbyOp.addP "B" "b", LobbyOp.addP "C" "c",
       LobbyOp.removeP "a"])
    ∧ (∀ nickname id s2 p,
        (GameSession.new "g7" 0).add_player nickname id 0 = .ok (s2, p) →
        p.is_host = true) :=
  host_invariant_spec "g7" 0
    [LobbyOp.addP "A" "a", LobbyOp.addP "B" "b", LobbyOp.addP "C" "c",
     LobbyOp.removeP "a"] (by decide)

/-! ### C8: registry sweep -/

theorem eq_of_key_eq {α : Type} {l : List (String × α)}
    (h : (l.map Prod.fst).Nodup) {kv kv2 : String × α}
    (h1 : kv ∈ l) (h2 : kv2 ∈ l) (he : kv.1 = kv2.1) : kv = kv2 := by
  induction l with
  | nil => simp at h1
  | cons x l ih =>
    rw [List.map_cons, List.nodup_cons] at h
    rcases List.mem_cons.mp h1 with rfl | h1m
    · rcases List.mem_cons.mp h2 with rfl | h2m
      · rfl
      · exact absurd (he ▸ List.mem_map_of_mem Prod.fst h2m) h.1
    · rcases List.mem_cons.mp h2 with rfl | h2m
      · exact absurd (he ▸ List.mem_map_of_mem Prod.fst h1m) h.1
      · exact ih h.2 h1m h2m

theorem foldl_remove_games (ids : List String) (m : GameManager) :
    (ids.foldl GameManager.remove_game m).games
      = m.games.filter (fun kv => decide (kv.1 ∉ ids)) := by
  induction ids generalizing m with
  | nil =>
    simp only [List.foldl_nil]
    have : ∀ kv : String × GameSession, decide (kv.1 ∉ ([] : List String)) = true := by
      intro kv; simp
    rw [List.filter_eq_self.mpr (fun kv _ => this kv)]
  | cons id rest ih =>
    rw [List.foldl_cons, ih]
    simp only [GameManager.remove_game, eraseKV, List.filter_filter]
    apply List.filter_congr
    intro kv _
    by_cases h1 : kv.1 = id <;> by_cases h2 : kv.1 ∈ rest <;>
      simp [h1, h2, List.mem_cons]

/-- C8: at any time `now`, the sweep keeps exactly the sessions that are
neither past the 1-hour creation TTL nor `Finished` past the 30-minute
finish TTL, returns the number removed, and an immediate second sweep
removes nothing. -/
theorem cleanup_stale_games_spec (now : Int) (m : GameManager)
    (hnodup : (m.games.map Prod.fst).Nodup) :
    (∀ g : GameSession, isStale now g = true ↔
      (g.created_at < now - 3600
       ∨ (g.state = GameState.Finished
          ∧ ∃ f, g.finished_at = some f ∧ f < now - 1800)))
    ∧ (m.cleanup_stale_games now).1.games
        = m.games.filter (fun kv => !(isStale now kv.2))
    ∧ (m.cleanup_stale_games now).2
        = (m.games.filter (fun kv => isStale now kv.2)).length
    ∧ (∀ kv ∈ m.games,
        (kv ∈ (m.cleanup_stale_games now).1.games ↔ isStale now kv.2 = false))
    ∧ ((m.cleanup_stale_games now).1.cleanup_stale_games now).2 = 0 := by
  have hchar : ∀ g : GameSession, isStale now g = true ↔
      (g.created_at < now - 3600
       ∨ (g.state = GameState.Finished
          ∧ ∃ f, g.finished_at = some f ∧ f < now - 1800)) := by
    intro g
    unfold isStale
    cases hf : g.finished_at with
    | none =>
      simp [GAME_TTL_SECONDS, FINISHED_GAME_TTL_SECONDS]
    | some f =>
      simp [GAME_TTL_SECONDS, FINISHED_GAME_TTL_SECONDS]
  have hmain : (m.cleanup_stale_games now).1.games
      = m.games.filter (fun kv => !(isStale now kv.2)) := by
    show (((m.games.filter (fun kv => isStale now kv.2)).map
        Prod.fst).foldl GameManager.remove_game m).games
      = m.games.filter (fun kv => !(isStale now kv.2))
    rw [foldl_remove_games]
    apply List.filter_congr
    intro kv hkv
    by_cases hs : isStale now kv.2
    · have : kv.1 ∈ (m.games.filter (fun kv => isStale now kv.2)).map Prod.fst :=
        List.mem_map_of_mem Prod.fst (List.mem_filter.mpr ⟨hkv, hs⟩)
      simp [this, hs]
    · have : kv.1 ∉ (m.games.filter (fun kv => isStale now kv.2)).map Prod.fst := by
        intro hmem
        obtain ⟨kv2, hkv2, hkeq⟩ := List.mem_map.mp hmem
        have hkv2m := List.mem_filter.mp hkv2
        have : kv2 = kv := eq_of_key_eq hnodup hkv2m.1 hkv hkeq
        rw [this] at hkv2m
        exact hs hkv2m.2
      simp [this, hs]
  have hcount : (m.cleanup_stale_games now).2
      = (m.games.filter (fun kv => isStale now kv.2)).length := by
    show ((m.games.filter (fun kv => isStale now kv.2)).map Prod.fst).length
      = (m.games.filter (fun kv => isStale now kv.2)).length
    rw [List.length_map]
  refine ⟨hchar, hmain, hcount, ?_, ?_⟩
  · intro kv hkv
    rw [hmain]
    constructor
    · intro hmem
      have := (List.mem_filter.mp hmem).2
      cases hx : isStale now kv.2
      · rfl
      · rw [hx] at this; exact absurd this (by simp)
    · intro hfalse
      exact List.mem_filter.mpr ⟨hkv, by rw [hfalse]; rfl⟩
  · show ((((m.cleanup_stale_games now).1.games.filter
        (fun kv => isStale now kv.2)).map Prod.fst)).length = 0
    rw [List.length_eq_zero, List.map_eq_nil_iff, List.filter_eq_nil_iff]
    intro kv hkv
    rw [hmain] at hkv
    have := (List.mem_filter.mp hkv).2
    intro hs
    rw [hs] at this
    exact absurd this (by simp)

/-- A three-session registry: one stale unfinished, one stale finished,
one fresh. -/
def sampleManager : GameManager :=
  { games :=
      [("old", { GameSession.new "old" (-4000) with state := GameState.Playing }),
       ("fin", { GameSession.new "fin" (-100) with
          state := GameState.Finished, finished_at := some (-2000) }),
       ("new", GameSession.new "new" (-10))] }

/-- Concrete check of `cleanup_stale_games_spec` at `now = 0`: the stale
pair goes, the fresh session stays, and a second sweep removes nothing. -/
theorem cleanup_stale_games_spec_witness :
    (sampleManager.cleanup_stale_games 0).1.games
        = sampleManager.games.filter (fun kv => !(isStale 0 kv.2))
    ∧ (sampleManager.cleanup_stale_games 0).2
        = (sampleManager.games.filter (fun kv => isStale 0 kv.2)).length
    ∧ ((sampleManager.cleanup_stale_games 0).1.cleanup_stale_games 0).2 = 0 := by
  have h := cleanup_stale_games_spec 0 sampleManager (by decide)
  exact ⟨h.2.1, h.2.2.1, h.2.2.2.2⟩

/-! ### C9: tallying with no votes -/

/-- Like `sessionVoting` but before anyone voted. -/
def sessionVotingEmpty : GameSession :=
  { sessionVoting with votes := [] }

/-- C9 counterexample: on an empty votes map `tally_votes` does not signal
an error — its Rust return type (`serde_json::Value`) is infallible and
the early return is the ordinary no-elimination value
`{"eliminated": null, "vote_counts": {}}`, modelled as `noVotes`, with
the session untouched. -/
theorem tally_votes_empty_counterexample :
    sessionVotingEmpty.tally_votes 0
      = (sessionVotingEmpty, TallyResult.noVotes) := rfl

/-- C9 (amended): invoked on a session with no recorded votes,
`tally_votes` eliminates no one and returns the unchanged session
together with the no-elimination result (not an error value). -/
theorem tally_votes_empty_spec (s : GameSession) (k : Nat)
    (h : s.votes = []) :
    s.tally_votes k = (s, TallyResult.noVotes) := by
  unfold GameSession.tally_votes
  rw [if_pos (show s.votes.isEmpty = true by rw [h]; rfl)]

/-- Concrete check of `tally_votes_empty_spec`. -/
theorem tally_votes_empty_spec_witness :
    sessionVotingEmpty.votes = []
    ∧ sessionVotingEmpty.tally_votes 3
        = (sessionVotingEmpty, TallyResult.noVotes) :=
  ⟨rfl, tally_votes_empty_spec sessionVotingEmpty 3 rfl⟩

/-! ### C10: joins are not capped, so an over-full lobby can never start -/

/-- The player record a successful join creates. -/
def addedPlayer (s : GameSession) (nickname id : String) (now : Int) : Player :=
  Player.new id nickname s.players.isEmpty now

/-- The session a successful join returns. -/
def addedSession (s : GameSession) (nickname id : String) (now : Int) :
    GameSession :=
  { s with players := insertKV id (addedPlayer s nickname id now) s.players }

/-- C10: `add_player` fails exactly when the phase is not `Lobby`; the
player count is never checked, so any lobby join (13th included) succeeds
and grows the roster by one; and once more than 12 players are present,
`start_game` fails for every shuffle, word list and clock — role
assignment rejects more than 12 players — so the session cannot leave
`Lobby` by starting a round. -/
theorem add_player_unbounded_spec (s : GameSession) (nickname id : String)
    (now : Int) :
    ((∃ e, s.add_player nickname id now = .error e) ↔
      s.state ≠ GameState.Lobby)
    ∧ (s.state = GameState.Lobby → lookupKV id s.players = none →
      ∃ s2 p, s.add_player nickname id now = .ok (s2, p)
        ∧ s2.players.length = s.players.length + 1)
    ∧ (12 < s.players.length →
      ∀ (shuffle : List Role → List Role)
        (shuffleIds : List String → List String)
        (wordPairs : List (String × String)) (pairIdx : Nat) (now2 : Int),
        ∃ e, s.start_game shuffle shuffleIds wordPairs pairIdx now2
          = .error e) := by
  refine ⟨⟨?_, ?_⟩, ?_, ?_⟩
  · rintro ⟨e, he⟩ hst
    unfold GameSession.add_player at he
    rw [if_neg (show ¬ (s.state ≠ GameState.Lobby) from fun hc => hc hst)] at he
    exact Except.noConfusion he
  · intro hst
    refine ⟨"Cannot join game that has already started", ?_⟩
    unfold GameSession.add_player
    rw [if_pos hst]
  · intro hst hfresh
    refine ⟨addedSession s nickname id now, addedPlayer s nickname id now, ?_, ?_⟩
    · unfold GameSession.add_player
      rw [if_neg (show ¬ (s.state ≠ GameState.Lobby) from fun hc => hc hst)]
      rfl
    · show (insertKV id (addedPlayer s nickname id now) s.players).length
        = s.players.length + 1
      rw [insertKV_of_lookup_none id _ s.players hfresh, List.length_append]
      rfl
  · intro h12 shuffle shuffleIds wordPairs pairIdx now2
    unfold GameSession.start_game
    have hcs : s.can_start = true := by
      unfold GameSession.can_start MIN_PLAYERS
      simp
      omega
    rw [if_neg (show ¬ ¬ s.can_start = true from fun hc => hc hcs)]
    by_cases hst : s.state = GameState.Lobby
    · rw [if_neg (show ¬ (s.state ≠ GameState.Lobby) from fun hc => hc hst)]
      have hroles : assign_roles shuffle (s.players.map Prod.snd)
          = .error "Maximum 12 players allowed" := by
        unfold assign_roles
        rw [List.length_map]
        rw [if_neg (by omega), if_pos (by omega)]
      rw [hroles]
      exact ⟨"Maximum 12 players allowed", rfl⟩
    · rw [if_pos hst]
      exact ⟨"Game has already started", rfl⟩

/-- A 13-player lobby. -/
def sessionLobby13 : GameSession :=
  { GameSession.new "g13" 0 with
    players := (samplePlayers 13).map (fun p => (p.id, p)) }

/-- Concrete check of `add_player_unbounded_spec`: a 14th join succeeds on
a 13-player lobby, and starting it fails. -/
theorem add_player_unbounded_spec_witness :
    (∃ s2 p, sessionLobby13.add_player "Newbie" "99" 5 = .ok (s2, p)
      ∧ s2.players.length = sessionLobby13.players.length + 1)
    ∧ (∃ e, sessionLobby13.start_game id id [("castle", "fortress")] 0 5
        = .error e) := by
  have h := add_player_unbounded_spec sessionLobby13 "Newbie" "99" 5
  exact ⟨h.2.1 (by decide) (by decide),
    h.2.2 (by decide) id id [("castle", "fortress")] 0 5⟩

end DragonSeeker
